import Mathlib

/-!
Verification of the telemetry measure/tag/view registration and export-naming
layer of the open-match backend API (`internal/app/backendapi/apisrv/backend_stats.go`).

The repository source declares the Measures, TagKeys, Views and the default view
list directly; the Registry, Recorder, aggregation and export behaviour is
specified in the design document and modelled here from its words.
-/

namespace OpenMatch

/-- A Measure: a named, typed, unit-annotated counter definition, as created by
`stats.Int64(name, description, unit)` in `backend_stats.go`. -/
structure Measure where
  name : String
  description : String
  unit : String
deriving DecidableEq

/-- A TagKey: a named dimension used to partition measurements, as created by
`tag.NewKey(name)` in `backend_stats.go`. -/
structure TagKey where
  name : String
deriving DecidableEq

/-- The four aggregation kinds of the view layer: Count, Sum, LastValue and
Distribution over bucket boundaries. -/
inductive AggKind where
  | count
  | sum
  | lastValue
  | distribution (bounds : List Int)
deriving DecidableEq

/-- A View: binds a Measure to an Aggregation policy and an ordered set of
TagKeys, mirroring the `view.View` struct literals in `backend_stats.go`. -/
structure View where
  name : String
  measure : Measure
  description : String
  aggregation : AggKind
  tagKeys : List TagKey
deriving DecidableEq

/-! ### The declarations of `backend_stats.go` -/

/-- `BeLogLines = stats.Int64("backendapi/logs_total", ...)`. -/
def BeLogLines : Measure :=
  ⟨"backendapi/logs_total", "Number of Backend API lines logged", "1"⟩

/-- `BeFailures = stats.Int64("backendapi/failures_total", ...)`. -/
def BeFailures : Measure :=
  ⟨"backendapi/failures_total", "Number of Backend API failures", "1"⟩

/-- `BeAssignments = stats.Int64("backendapi/assignments_total", ...)`. -/
def BeAssignments : Measure :=
  ⟨"backendapi/assignments_total", "Number of players assigned to matches", "1"⟩

/-- `BeAssignmentFailures = stats.Int64("backendapi/assignment/failures_total", ...)`. -/
def BeAssignmentFailures : Measure :=
  ⟨"backendapi/assignment/failures_total", "Number of player match assigment failures", "1"⟩

/-- `BeAssignmentDeletions = stats.Int64("backendapi/assignment/deletions_total", ...)`. -/
def BeAssignmentDeletions : Measure :=
  ⟨"backendapi/assignment/deletions_total", "Number of player match assigment deletions", "1"⟩

/-- `BeAssignmentDeletionFailures = stats.Int64("backendapi/assignment/deletions/failures_total", ...)`. -/
def BeAssignmentDeletionFailures : Measure :=
  ⟨"backendapi/assignment/deletions/failures_total", "Number of player match assigment deletion failures", "1"⟩

/-- `KeyMethod, _ = tag.NewKey("method")`. -/
def KeyMethod : TagKey := ⟨"method"⟩

/-- `KeySeverity, _ = tag.NewKey("severity")`. -/
def KeySeverity : TagKey := ⟨"severity"⟩

/-- `BeLogCountView`: view "log_lines/total" over `BeLogLines`, Count aggregation,
tag keys `[KeySeverity]`. -/
def BeLogCountView : View :=
  ⟨"log_lines/total", BeLogLines, "The number of lines logged", AggKind.count, [KeySeverity]⟩

/-- `BeFailureCountView`: view "failures" over `BeFailures`, Count aggregation, no tag keys. -/
def BeFailureCountView : View :=
  ⟨"failures", BeFailures, "The number of failures", AggKind.count, []⟩

/-- `BeAssignmentCountView`: view "backend/assignments" over `BeAssignments`,
Count aggregation, no tag keys. -/
def BeAssignmentCountView : View :=
  ⟨"backend/assignments", BeAssignments,
   "The number of successful player match assignments", AggKind.count, []⟩

/-- `BeAssignmentFailureCountView`: view "backend/assignments/failures" over
`BeAssignmentFailures`, Count aggregation, no tag keys. -/
def BeAssignmentFailureCountView : View :=
  ⟨"backend/assignments/failures", BeAssignmentFailures,
   "The number of player match assignment failures", AggKind.count, []⟩

/-- `BeAssignmentDeletionCountView`: view "backend/assignments/deletions" over
`BeAssignmentDeletions`, Count aggregation, no tag keys. -/
def BeAssignmentDeletionCountView : View :=
  ⟨"backend/assignments/deletions", BeAssignmentDeletions,
   "The number of successful player match assignments", AggKind.count, []⟩

/-- `BeAssignmentDeletionFailureCountView`: view "backend/assignments/deletions/failures"
over `BeAssignmentDeletionFailures`, Count aggregation, no tag keys. -/
def BeAssignmentDeletionFailureCountView : View :=
  ⟨"backend/assignments/deletions/failures", BeAssignmentDeletionFailures,
   "The number of player match assignment failures", AggKind.count, []⟩

/-- `DefaultBackendAPIViews`, the default backend API OpenCensus measure views. -/
def DefaultBackendAPIViews : List View :=
  [BeLogCountView, BeFailureCountView, BeAssignmentCountView,
   BeAssignmentFailureCountView, BeAssignmentDeletionCountView,
   BeAssignmentDeletionFailureCountView]

/-! ### Export naming transform -/

/-- Replace every forward slash by an underscore, character by character.
Modelled from the spec: the exporter-side name transform (the package comment of
`backend_stats.go` documents the same rule; the exporter itself is not in the
repository sources). -/
def replaceSlashes : List Char → List Char
  | [] => []
  | c :: cs => (if c = '/' then '_' else c) :: replaceSlashes cs

/-- The view name with every "/" replaced by "_". -/
def slashToUnderscore (s : String) : String :=
  String.mk (replaceSlashes s.data)

/-- Modelled from the spec: `external_name = namespace + "_" + replace(view.name, "/", "_")`;
the Prometheus exporter that applies this transform is not in the repository sources. -/
def exportedMetricName (ns : String) (vw : View) : String :=
  ns ++ "_" ++ slashToUnderscore vw.name

theorem replaceSlashes_eq_map (cs : List Char) :
    replaceSlashes cs = cs.map (fun c => if c = '/' then '_' else c) := by
  induction cs with
  | nil => rfl
  | cons c cs ih => simp [replaceSlashes, ih]

/-- Claim C1: for every registered View and every namespace string, the exported
external metric name is the namespace, then "_", then the View's name with every
"/" replaced by "_"; in particular the View named "backend/assignments" under
namespace "open_match" exports as "open_match_backend_assignments". -/
theorem c1_export_naming :
    (∀ (ns : String) (vw : View),
      exportedMetricName ns vw =
        ns ++ "_" ++ String.mk (vw.name.data.map (fun c => if c = '/' then '_' else c))) ∧
    exportedMetricName "open_match" BeAssignmentCountView = "open_match_backend_assignments" := by
  constructor
  · intro ns vw
    simp [exportedMetricName, slashToUnderscore, replaceSlashes_eq_map]
  · decide

/-- Claim C7: `DefaultBackendAPIViews` is exactly the list of the six declared
views (log lines, failures, assignments, assignment failures, assignment
deletions, assignment deletion failures), each exactly once. -/
theorem c7_default_views :
    DefaultBackendAPIViews =
      [BeLogCountView, BeFailureCountView, BeAssignmentCountView,
       BeAssignmentFailureCountView, BeAssignmentDeletionCountView,
       BeAssignmentDeletionFailureCountView] ∧
    DefaultBackendAPIViews.length = 6 ∧
    (DefaultBackendAPIViews.map View.name).Nodup := by
  refine ⟨rfl, rfl, ?_⟩
  decide

/-! ### Registry (registration-time validation) -/

/-- Registration-time and export-time error taxonomy of the spec. -/
inductive RegError where
  | duplicateName
  | unknownMeasure
  | unknownTagKey
  | reservedName
deriving DecidableEq

/-- Modelled from the spec: the process-wide Registry holding all declared
Measures, TagKeys and Views (the OpenCensus registry itself is not in the
repository sources). -/
structure Registry where
  measures : List Measure
  tagKeys : List TagKey
  views : List View
deriving DecidableEq

/-- The empty Registry at process start. -/
def registryEmpty : Registry := ⟨[], [], []⟩

/-- Whether a Measure of this name is already registered. -/
def measureNameTaken (r : Registry) (n : String) : Bool :=
  r.measures.any (fun m => m.name = n)

/-- Whether a TagKey of this name is already registered. -/
def tagKeyNameTaken (r : Registry) (n : String) : Bool :=
  r.tagKeys.any (fun k => k.name = n)

/-- Whether a View of this name is already registered. -/
def viewNameTaken (r : Registry) (n : String) : Bool :=
  r.views.any (fun v => v.name = n)

/-- The five infrastructure labels auto-populated by the scraping system, which
TagKey names must not collide with. -/
def reservedLabels : List String :=
  ["pod", "namespace", "instance", "job", "endpoint"]

/-- Modelled from the spec: `RegisterMeasure(name, description, unit)` fails with
`DuplicateNameError` if the name is already registered, otherwise adds the
Measure. -/
def registerMeasure (r : Registry) (n descr u : String) :
    Except RegError (Registry × Measure) :=
  if measureNameTaken r n then Except.error RegError.duplicateName
  else
    Except.ok ({ r with measures := r.measures ++ [⟨n, descr, u⟩] }, ⟨n, descr, u⟩)

/-- Modelled from the spec: `RegisterTagKey(name)` fails validation on the five
reserved infrastructure labels, fails with `DuplicateNameError` on a name
collision, otherwise adds the TagKey. -/
def registerTagKey (r : Registry) (n : String) :
    Except RegError (Registry × TagKey) :=
  if n ∈ reservedLabels then Except.error RegError.reservedName
  else if tagKeyNameTaken r n then Except.error RegError.duplicateName
  else Except.ok ({ r with tagKeys := r.tagKeys ++ [⟨n⟩] }, ⟨n⟩)

/-- Modelled from the spec: `RegisterView(name, measure, aggregation, tagKeys)`
fails with `DuplicateNameError` on a name collision and with the unknown-reference
errors when the Measure or a TagKey is unregistered, otherwise adds the View. -/
def registerView (r : Registry) (n descr : String) (m : Measure)
    (agg : AggKind) (keys : List TagKey) : Except RegError (Registry × View) :=
  if viewNameTaken r n then Except.error RegError.duplicateName
  else if !(r.measures.contains m) then Except.error RegError.unknownMeasure
  else if !(keys.all (fun k => r.tagKeys.contains k)) then Except.error RegError.unknownTagKey
  else
    Except.ok ({ r with views := r.views ++ [⟨n, m, descr, agg, keys⟩] },
               ⟨n, m, descr, agg, keys⟩)

/-- The Registry after a `RegisterMeasure` call: unchanged when the call fails. -/
def applyRegisterMeasure (r : Registry) (n descr u : String) : Registry :=
  match registerMeasure r n descr u with
  | Except.ok p => p.1
  | Except.error _ => r

/-- The Registry after a `RegisterTagKey` call: unchanged when the call fails. -/
def applyRegisterTagKey (r : Registry) (n : String) : Registry :=
  match registerTagKey r n with
  | Except.ok p => p.1
  | Except.error _ => r

/-- The Registry after a `RegisterView` call: unchanged when the call fails. -/
def applyRegisterView (r : Registry) (n descr : String) (m : Measure)
    (agg : AggKind) (keys : List TagKey) : Registry :=
  match registerView r n descr m agg keys with
  | Except.ok p => p.1
  | Except.error _ => r

theorem measureNameTaken_after (r : Registry) (n descr u : String) (r1 : Registry)
    (m1 : Measure) (h : registerMeasure r n descr u = Except.ok (r1, m1)) :
    measureNameTaken r1 n = true ∧ m1 ∈ r1.measures := by
  unfold registerMeasure at h
  split at h
  · exact absurd h (by simp)
  · injection h with h
    injection h with h1 h2
    subst h1; subst h2
    simp [measureNameTaken]

theorem tagKeyNameTaken_after (r : Registry) (n : String) (r1 : Registry)
    (k1 : TagKey) (h : registerTagKey r n = Except.ok (r1, k1)) :
    tagKeyNameTaken r1 n = true ∧ n ∉ reservedLabels ∧ k1 ∈ r1.tagKeys := by
  unfold registerTagKey at h
  by_cases hres : n ∈ reservedLabels
  · rw [if_pos hres] at h
    exact absurd h (by simp)
  · rw [if_neg hres] at h
    split at h
    · exact absurd h (by simp)
    · injection h with h
      injection h with h1 h2
      subst h1; subst h2
      exact ⟨by simp [tagKeyNameTaken], hres, by simp⟩

theorem viewNameTaken_after (r : Registry) (n descr : String) (m : Measure)
    (agg : AggKind) (keys : List TagKey) (r1 : Registry) (v1 : View)
    (h : registerView r n descr m agg keys = Except.ok (r1, v1)) :
    viewNameTaken r1 n = true ∧ v1 ∈ r1.views := by
  unfold registerView at h
  split at h
  · exact absurd h (by simp)
  · split at h
    · exact absurd h (by simp)
    · split at h
      · exact absurd h (by simp)
      · injection h with h
        injection h with h1 h2
        subst h1; subst h2
        simp [viewNameTaken]

/-- Claim C2: for every Measure, TagKey or View name, registering that same name
a second time fails with `DuplicateNameError`, the Registry is unchanged by the
second call, and the first definition remains registered. -/
theorem c2_duplicate_registration :
    (∀ (r : Registry) (n descr u descr2 u2 : String) (r1 : Registry) (m1 : Measure),
      registerMeasure r n descr u = Except.ok (r1, m1) →
        registerMeasure r1 n descr2 u2 = Except.error RegError.duplicateName ∧
        applyRegisterMeasure r1 n descr2 u2 = r1 ∧ m1 ∈ r1.measures) ∧
    (∀ (r : Registry) (n : String) (r1 : Registry) (k1 : TagKey),
      registerTagKey r n = Except.ok (r1, k1) →
        registerTagKey r1 n = Except.error RegError.duplicateName ∧
        applyRegisterTagKey r1 n = r1 ∧ k1 ∈ r1.tagKeys) ∧
    (∀ (r : Registry) (n descr : String) (m : Measure) (agg : AggKind)
        (keys : List TagKey) (descr2 : String) (m2 : Measure) (agg2 : AggKind)
        (keys2 : List TagKey) (r1 : Registry) (v1 : View),
      registerView r n descr m agg keys = Except.ok (r1, v1) →
        registerView r1 n descr2 m2 agg2 keys2 = Except.error RegError.duplicateName ∧
        applyRegisterView r1 n descr2 m2 agg2 keys2 = r1 ∧ v1 ∈ r1.views) := by
  refine ⟨?_, ?_, ?_⟩
  · intro r n descr u descr2 u2 r1 m1 h
    obtain ⟨htaken, hmem⟩ := measureNameTaken_after r n descr u r1 m1 h
    have herr : registerMeasure r1 n descr2 u2 = Except.error RegError.duplicateName := by
      unfold registerMeasure
      simp [htaken]
    exact ⟨herr, by simp [applyRegisterMeasure, herr], hmem⟩
  · intro r n r1 k1 h
    obtain ⟨htaken, hres, hmem⟩ := tagKeyNameTaken_after r n r1 k1 h
    have herr : registerTagKey r1 n = Except.error RegError.duplicateName := by
      unfold registerTagKey
      simp [htaken, hres]
    exact ⟨herr, by simp [applyRegisterTagKey, herr], hmem⟩
  · intro r n descr m agg keys descr2 m2 agg2 keys2 r1 v1 h
    obtain ⟨htaken, hmem⟩ := viewNameTaken_after r n descr m agg keys r1 v1 h
    have herr : registerView r1 n descr2 m2 agg2 keys2 = Except.error RegError.duplicateName := by
      unfold registerView
      simp [htaken]
    exact ⟨herr, by simp [applyRegisterView, herr], hmem⟩

/-- Witness for C2 at concrete registrations of a measure, a tag key and a view. -/
theorem c2_duplicate_registration_witness :
    (registerMeasure registryEmpty "backendapi/logs_total" "d" "1" =
      Except.ok (⟨[⟨"backendapi/logs_total", "d", "1"⟩], [], []⟩,
                 ⟨"backendapi/logs_total", "d", "1"⟩) ∧
     registerMeasure ⟨[⟨"backendapi/logs_total", "d", "1"⟩], [], []⟩
        "backendapi/logs_total" "e" "ms" = Except.error RegError.duplicateName) ∧
    (registerTagKey registryEmpty "method" =
      Except.ok (⟨[], [⟨"method"⟩], []⟩, ⟨"method"⟩) ∧
     registerTagKey ⟨[], [⟨"method"⟩], []⟩ "method" = Except.error RegError.duplicateName) := by
  refine ⟨⟨rfl, ?_⟩, ⟨rfl, ?_⟩⟩
  · exact (c2_duplicate_registration.1 registryEmpty "backendapi/logs_total" "d" "1" "e" "ms"
      ⟨[⟨"backendapi/logs_total", "d", "1"⟩], [], []⟩ ⟨"backendapi/logs_total", "d", "1"⟩
      rfl).1
  · exact (c2_duplicate_registration.2.1 registryEmpty "method"
      ⟨[], [⟨"method"⟩], []⟩ ⟨"method"⟩ rfl).1

/-- Claim C6: registering a TagKey with any of the five reserved infrastructure
label names fails validation at `RegisterTagKey` time, for every Registry. -/
theorem c6_reserved_tagkey (n : String) (h : n ∈ reservedLabels) (r : Registry) :
    registerTagKey r n = Except.error RegError.reservedName := by
  unfold registerTagKey
  rw [if_pos h]

/-- Witness for C6: registering a TagKey named "pod" fails. -/
theorem c6_reserved_tagkey_witness :
    registerTagKey registryEmpty "pod" = Except.error RegError.reservedName :=
  c6_reserved_tagkey "pod" (by decide) registryEmpty

/-! ### Recorder and aggregation pipeline -/

/-- Modelled from the spec: per-View, per-tag-combination accumulated
aggregation state (the OpenCensus aggregation engine is not in the repository
sources). `count` holds an event counter, `sum` an accumulated value, `last`
the most recent value, `dist` bucket counters with a running count and sum. -/
inductive AggState where
  | count (n : Nat)
  | sum (s : Int)
  | last (v : Int)
  | dist (buckets : List Nat) (n : Nat) (s : Int)
deriving DecidableEq

/-- The fresh aggregation state for a given aggregation kind, created lazily on
the first Record for a tag combination. -/
def initState : AggKind → AggState
  | AggKind.count => AggState.count 0
  | AggKind.sum => AggState.sum 0
  | AggKind.lastValue => AggState.last 0
  | AggKind.distribution bounds => AggState.dist (List.replicate (bounds.length + 1) 0) 0 0

/-- Increment the counter at a bucket position. -/
def incAt : List Nat → Nat → List Nat
  | [], _ => []
  | c :: cs, 0 => (c + 1) :: cs
  | c :: cs, Nat.succ i => c :: incAt cs i

/-- Index of the distribution bucket containing a value. -/
def bucketIndex (bounds : List Int) (v : Int) : Nat :=
  match bounds with
  | [] => 0
  | b :: rest => if v < b then 0 else bucketIndex rest v + 1

/-- Modelled from the spec: fold one Record's value into an aggregation state.
Count increments regardless of value, Sum accumulates the value, LastValue
replaces, Distribution increments the containing bucket plus running count and
sum. -/
def foldValue : AggKind → AggState → Int → AggState
  | AggKind.count, AggState.count n, _ => AggState.count (n + 1)
  | AggKind.sum, AggState.sum s, v => AggState.sum (s + v)
  | AggKind.lastValue, _, v => AggState.last v
  | AggKind.distribution bounds, AggState.dist cs n s, v =>
      AggState.dist (incAt cs (bucketIndex bounds v)) (n + 1) (s + v)
  | _, st, _ => st

/-- The stored scalar value of an aggregation state (the event count for Count
and Distribution, the accumulated sum for Sum, the last value for LastValue). -/
def stateValue : AggState → Int
  | AggState.count n => (n : Int)
  | AggState.sum s => s
  | AggState.last v => v
  | AggState.dist _ n _ => (n : Int)

/-- Look up a TagKey's value in the tag mapping supplied to a Record call. -/
def lookupTag (tags : List (TagKey × String)) (k : TagKey) : Option String :=
  match tags with
  | [] => none
  | (k2, v) :: rest => if k2 = k then some v else lookupTag rest k

/-- Modelled from the spec: project the supplied tags down to exactly the View's
declared TagKey set; a TagKey missing from the mapping yields a missing-value
placeholder (`none`). -/
def projectTags (vw : View) (tags : List (TagKey × String)) : List (Option String) :=
  vw.tagKeys.map (lookupTag tags)

/-- A series key: the View's name together with one projected tag combination. -/
abbrev SeriesKey := String × List (Option String)

/-- The accumulated aggregation state of all series, keyed by View name and tag
combination; entries are created lazily on first Record. -/
abbrev SeriesData := List (SeriesKey × AggState)

/-- Look up the aggregation state of one series. -/
def lookupSeries (d : SeriesData) (key : SeriesKey) : Option AggState :=
  match d with
  | [] => none
  | (k, st) :: rest => if k = key then some st else lookupSeries rest key

/-- Fold a value into the series for `key`, creating the state lazily. -/
def updateSeries (agg : AggKind) (key : SeriesKey) (v : Int) : SeriesData → SeriesData
  | [] => [(key, foldValue agg (initState agg) v)]
  | (k, st) :: rest =>
      if k = key then (k, foldValue agg st v) :: rest
      else (k, st) :: updateSeries agg key v rest

/-- Modelled from the spec: a single View's share of a Record call — when the
View is bound to the recorded Measure, fold the value into the state of the
projected tag combination, otherwise leave the data unchanged. -/
def recordView (vw : View) (m : Measure) (v : Int) (tags : List (TagKey × String))
    (d : SeriesData) : SeriesData :=
  if vw.measure = m then updateSeries vw.aggregation (vw.name, projectTags vw tags) v d
  else d

/-- Modelled from the spec: `Record(measure, value, tags)` routes the value into
the aggregation state of every registered View bound to the Measure; it is a
total function — recording never fails, whatever tags are supplied. -/
def record (reg : Registry) (d : SeriesData) (m : Measure) (v : Int)
    (tags : List (TagKey × String)) : SeriesData :=
  reg.views.foldl (fun acc vw => recordView vw m v tags acc) d

/-- Record a list of values one after the other, all with the same tag mapping. -/
def recordList (reg : Registry) (d : SeriesData) (m : Measure) (vs : List Int)
    (tags : List (TagKey × String)) : SeriesData :=
  vs.foldl (fun acc v => record reg acc m v tags) d

/-- The aggregated event count of a series: the stored counter, or 0 when no
state exists yet. -/
def getCountD : Option AggState → Nat
  | some (AggState.count n) => n
  | _ => 0

/-- Whether an optional series state is absent or a Count state. -/
def countShaped : Option AggState → Bool
  | none => true
  | some (AggState.count _) => true
  | _ => false

/-- Whether a projected tag combination carries a missing-value placeholder,
the condition reported as a cardinality inconsistency at export time. -/
def comboMissingTag (combo : List (Option String)) : Bool :=
  combo.any (fun o => o.isNone)

/-- Modelled from the spec: the export-time diagnostic listing every series
whose tag combination carries a missing-value placeholder. -/
def exportDiagnostics (d : SeriesData) : List SeriesKey :=
  (d.filter (fun e => comboMissingTag e.1.2)).map (fun e => e.1)

/-! ### Lemmas on the aggregation pipeline -/

theorem lookupSeries_updateSeries_self (agg : AggKind) (key : SeriesKey) (v : Int)
    (d : SeriesData) :
    lookupSeries (updateSeries agg key v d) key =
      some (foldValue agg ((lookupSeries d key).getD (initState agg)) v) := by
  induction d with
  | nil => simp [updateSeries, lookupSeries]
  | cons e rest ih =>
    obtain ⟨k, st⟩ := e
    by_cases hk : k = key
    · subst hk
      simp [updateSeries, lookupSeries]
    · simp [updateSeries, lookupSeries, hk, ih]

theorem lookupSeries_updateSeries_ne (agg : AggKind) (key key2 : SeriesKey) (v : Int)
    (d : SeriesData) (hne : key2 ≠ key) :
    lookupSeries (updateSeries agg key v d) key2 = lookupSeries d key2 := by
  induction d with
  | nil => simp [updateSeries, lookupSeries, Ne.symm hne]
  | cons e rest ih =>
    obtain ⟨k, st⟩ := e
    by_cases hk : k = key
    · subst hk
      simp [updateSeries, lookupSeries, Ne.symm hne]
    · simp only [updateSeries, if_neg hk]
      by_cases hk2 : k = key2
      · subst hk2
        simp [lookupSeries]
      · simp [lookupSeries, hk2, ih]

theorem lookupSeries_recordView_ne (vw : View) (m : Measure) (v : Int)
    (tags : List (TagKey × String)) (d : SeriesData) (key : SeriesKey)
    (h : vw.name ≠ key.1) :
    lookupSeries (recordView vw m v tags d) key = lookupSeries d key := by
  unfold recordView
  split
  · exact lookupSeries_updateSeries_ne _ _ _ _ _ (fun hc => h (by rw [hc]))
  · rfl

theorem lookupSeries_record_notbound (L : List View) (m : Measure) (v : Int)
    (tags : List (TagKey × String)) (d : SeriesData) (key : SeriesKey)
    (h : ∀ u ∈ L, u.name ≠ key.1) :
    lookupSeries (L.foldl (fun acc u => recordView u m v tags acc) d) key =
      lookupSeries d key := by
  induction L generalizing d with
  | nil => rfl
  | cons u rest ih =>
    rw [List.foldl_cons]
    rw [ih _ (fun w hw => h w (List.mem_cons_of_mem u hw))]
    exact lookupSeries_recordView_ne u m v tags d key (h u (List.mem_cons_self u rest))

theorem lookupSeries_foldl_record (m : Measure) (v : Int)
    (tags : List (TagKey × String)) (vw : View) (hm : vw.measure = m) :
    ∀ L : List View, (L.map View.name).Nodup → vw ∈ L → ∀ d : SeriesData,
      lookupSeries (L.foldl (fun acc u => recordView u m v tags acc) d)
          (vw.name, projectTags vw tags) =
        some (foldValue vw.aggregation
          ((lookupSeries d (vw.name, projectTags vw tags)).getD
            (initState vw.aggregation)) v) := by
  intro L
  induction L with
  | nil => intro _ hvw _; cases hvw
  | cons u rest ih =>
    intro hnd hvw d
    have hnotin : u.name ∉ rest.map View.name := (List.nodup_cons.mp hnd).1
    rw [List.foldl_cons]
    rcases List.mem_cons.mp hvw with hequ | hmem
    · subst hequ
      have hnames : ∀ w ∈ rest, w.name ≠ (vw.name, projectTags vw tags).1 := by
        intro w hw hcontra
        have hc2 : w.name = vw.name := hcontra
        exact hnotin (hc2 ▸ List.mem_map_of_mem View.name hw)
      rw [lookupSeries_record_notbound rest m v tags _ _ hnames]
      unfold recordView
      rw [if_pos hm]
      exact lookupSeries_updateSeries_self _ _ _ _
    · have hune : u.name ≠ (vw.name, projectTags vw tags).1 := by
        intro hcontra
        have hc2 : u.name = vw.name := hcontra
        have hin : u.name ∈ rest.map View.name := by
          rw [hc2]
          exact List.mem_map_of_mem View.name hmem
        exact hnotin hin
      rw [ih (List.nodup_cons.mp hnd).2 hmem]
      rw [lookupSeries_recordView_ne u m v tags d _ hune]

theorem lookupSeries_record (reg : Registry) (m : Measure) (v : Int)
    (tags : List (TagKey × String)) (vw : View)
    (hnd : (reg.views.map View.name).Nodup) (hvw : vw ∈ reg.views)
    (hm : vw.measure = m) (d : SeriesData) :
    lookupSeries (record reg d m v tags) (vw.name, projectTags vw tags) =
      some (foldValue vw.aggregation
        ((lookupSeries d (vw.name, projectTags vw tags)).getD
          (initState vw.aggregation)) v) :=
  lookupSeries_foldl_record m v tags vw hm reg.views hnd hvw d

theorem recordList_count (reg : Registry) (m : Measure)
    (tags : List (TagKey × String)) (vw : View)
    (hnd : (reg.views.map View.name).Nodup) (hvw : vw ∈ reg.views)
    (hm : vw.measure = m) (hagg : vw.aggregation = AggKind.count) :
    ∀ (vs : List Int) (d : SeriesData),
      countShaped (lookupSeries d (vw.name, projectTags vw tags)) = true →
      getCountD (lookupSeries (recordList reg d m vs tags) (vw.name, projectTags vw tags)) =
        getCountD (lookupSeries d (vw.name, projectTags vw tags)) + vs.length ∧
      countShaped (lookupSeries (recordList reg d m vs tags)
        (vw.name, projectTags vw tags)) = true := by
  intro vs
  induction vs with
  | nil =>
    intro d hshape
    exact ⟨by simp [recordList], by simpa [recordList] using hshape⟩
  | cons v rest ih =>
    intro d hshape
    have hrec := lookupSeries_record reg m v tags vw hnd hvw hm d
    have hstep : lookupSeries (record reg d m v tags) (vw.name, projectTags vw tags) =
        some (AggState.count
          (getCountD (lookupSeries d (vw.name, projectTags vw tags)) + 1)) := by
      rw [hrec, hagg]
      cases hl : lookupSeries d (vw.name, projectTags vw tags) with
      | none => simp [initState, foldValue, getCountD]
      | some st =>
        rw [hl] at hshape
        cases st with
        | count n => simp [foldValue, getCountD]
        | sum s => simp [countShaped] at hshape
        | last v2 => simp [countShaped] at hshape
        | dist b n s => simp [countShaped] at hshape
    have h2 : countShaped (lookupSeries (record reg d m v tags)
        (vw.name, projectTags vw tags)) = true := by
      rw [hstep]; rfl
    obtain ⟨ha, hb⟩ := ih (record reg d m v tags) h2
    have hfold : recordList reg d m (v :: rest) tags =
        recordList reg (record reg d m v tags) m rest tags := rfl
    rw [hfold]
    refine ⟨?_, hb⟩
    rw [ha, hstep]
    simp [getCountD]
    omega

/-! ### Claims on the recorder -/

/-- Claim C3: for a registered Count view, recording N events with identical tag
values yields an aggregated count of exactly N for that tag combination,
regardless of the recorded values. -/
theorem c3_count_aggregation (reg : Registry) (m : Measure) (vw : View)
    (vs : List Int) (tags : List (TagKey × String))
    (hnd : (reg.views.map View.name).Nodup) (hvw : vw ∈ reg.views)
    (hm : vw.measure = m) (hagg : vw.aggregation = AggKind.count) :
    getCountD (lookupSeries (recordList reg [] m vs tags)
      (vw.name, projectTags vw tags)) = vs.length := by
  have h := (recordList_count reg m tags vw hnd hvw hm hagg vs [] rfl).1
  simpa [lookupSeries, getCountD] using h

/-- A measure, view and registry used to instantiate the recorder claims. -/
def testMeasure : Measure := ⟨"backendapi/requests_total", "Total requests", "1"⟩

/-- A Count view over `testMeasure` tagged by `KeyMethod`. -/
def testView : View := ⟨"requests", testMeasure, "Total requests by method", AggKind.count, [KeyMethod]⟩

/-- A registry holding `testMeasure`, `KeyMethod` and `testView`. -/
def testRegistry : Registry := ⟨[testMeasure], [KeyMethod], [testView]⟩

/-- Witness for C3: three records with arbitrary values yield a count of 3. -/
theorem c3_count_aggregation_witness :
    getCountD (lookupSeries
      (recordList testRegistry [] testMeasure [7, -2, 7] [(KeyMethod, "FetchMatches")])
      (testView.name, projectTags testView [(KeyMethod, "FetchMatches")])) =
      ([7, -2, 7] : List Int).length :=
  c3_count_aggregation testRegistry testMeasure testView [7, -2, 7]
    [(KeyMethod, "FetchMatches")] (by decide) (by decide) rfl rfl

/-- Claim C5: `Record` is a total function — it folds the value into the bound
view's series for every tag mapping, including one that omits a declared
TagKey — and a missing tag only marks the combination for the export-time
cardinality diagnostic. -/
theorem c5_record_infallible (reg : Registry) (d : SeriesData) (m : Measure)
    (v : Int) (tags : List (TagKey × String)) (vw : View)
    (hnd : (reg.views.map View.name).Nodup) (hvw : vw ∈ reg.views)
    (hm : vw.measure = m) (hagg : vw.aggregation = AggKind.count)
    (hshape : countShaped (lookupSeries d (vw.name, projectTags vw tags)) = true) :
    getCountD (lookupSeries (record reg d m v tags) (vw.name, projectTags vw tags)) =
      getCountD (lookupSeries d (vw.name, projectTags vw tags)) + 1 ∧
    (∀ k ∈ vw.tagKeys, lookupTag tags k = none →
      comboMissingTag (projectTags vw tags) = true) := by
  constructor
  · have h := (recordList_count reg m tags vw hnd hvw hm hagg [v] d hshape).1
    simpa [recordList] using h
  · intro k hk hnone
    unfold comboMissingTag
    rw [List.any_eq_true]
    refine ⟨none, ?_, rfl⟩
    unfold projectTags
    rw [List.mem_map]
    exact ⟨k, hk, hnone⟩

/-- Witness for C5: recording with an empty tag mapping, which omits the view's
declared `method` key, still increments the count; the combination is flagged. -/
theorem c5_record_infallible_witness :
    (getCountD (lookupSeries (record testRegistry [] testMeasure 1 [])
        (testView.name, projectTags testView [])) =
      getCountD (lookupSeries [] (testView.name, projectTags testView [])) + 1) ∧
    (∀ k ∈ testView.tagKeys, lookupTag [] k = none →
      comboMissingTag (projectTags testView []) = true) :=
  c5_record_infallible testRegistry [] testMeasure 1 [] testView
    (by decide) (by decide) rfl rfl rfl

/-- The end-to-end scenario of the spec: register the measure, the `method`
TagKey and a Count view over it, then record three events tagged
method=FetchMatches and one tagged method=CreateAssignments. -/
def scenarioData : Option SeriesData :=
  match registerMeasure registryEmpty "backendapi/requests_total" "Total requests" "1" with
  | Except.error _ => none
  | Except.ok (r1, m) =>
    match registerTagKey r1 "method" with
    | Except.error _ => none
    | Except.ok (r2, k) =>
      match registerView r2 "requests" "Total requests by method" m AggKind.count [k] with
      | Except.error _ => none
      | Except.ok (r3, _) =>
        some (recordList r3 (recordList r3 [] m [1, 1, 1] [(k, "FetchMatches")])
          m [1] [(k, "CreateAssignments")])

/-- Claim C4: the end-to-end scenario produces exactly two series under the view
name "requests", distinguished by the `method` label, with counts 3 and 1. -/
theorem c4_end_to_end :
    scenarioData =
      some [(("requests", [some "FetchMatches"]), AggState.count 3),
            (("requests", [some "CreateAssignments"]), AggState.count 1)] := by
  rfl

/-- A Sum-aggregated view and registry, used to examine monotonicity. -/
def sumMeasure : Measure := ⟨"backendapi/bytes_total", "Bytes transferred", "By"⟩

/-- A Sum view over `sumMeasure` with no tag keys. -/
def sumView : View := ⟨"bytes", sumMeasure, "Bytes transferred", AggKind.sum, []⟩

/-- A registry holding only `sumMeasure` and `sumView`. -/
def sumRegistry : Registry := ⟨[sumMeasure], [], [sumView]⟩

/-- Counterexample to C8 as stated: on a Sum view, recording the value -1 after
the value 5 makes the stored value drop from 5 to 4, so the accumulated state of
a Sum view is not monotonic under every Record. -/
theorem c8_counterexample :
    sumView.aggregation = AggKind.sum ∧
    lookupSeries (recordList sumRegistry [] sumMeasure [5] [])
      (sumView.name, projectTags sumView []) = some (AggState.sum 5) ∧
    lookupSeries (recordList sumRegistry [] sumMeasure [5, -1] [])
      (sumView.name, projectTags sumView []) = some (AggState.sum 4) ∧
    ¬ stateValue (AggState.sum 5) ≤ stateValue (AggState.sum 4) := by
  refine ⟨rfl, rfl, rfl, by decide⟩

/-- Claim C8 (amended): the accumulated state of a Count view is monotonic under
every Record; the accumulated state of a Sum view is monotonic under every
Record whose value is non-negative. -/
theorem c8_monotonic_amended :
    (∀ (st : AggState) (v : Int),
      stateValue st ≤ stateValue (foldValue AggKind.count st v)) ∧
    (∀ (s v : Int), 0 ≤ v →
      stateValue (AggState.sum s) ≤ stateValue (foldValue AggKind.sum (AggState.sum s) v)) := by
  constructor
  · intro st v
    cases st with
    | count n =>
      show ((n : Int)) ≤ ((n + 1 : Nat) : Int)
      exact_mod_cast Nat.le_succ n
    | sum s => exact le_refl _
    | last v2 => exact le_refl _
    | dist b n s => exact le_refl _
  · intro s v hv
    show s ≤ s + v
    omega

/-- Witness for C8 (amended): folding the non-negative value 2 into a Sum state
holding 7 does not decrease the stored value. -/
theorem c8_monotonic_amended_witness :
    (0 : Int) ≤ 2 ∧
    stateValue (AggState.sum 7) ≤ stateValue (foldValue AggKind.sum (AggState.sum 7) 2) :=
  ⟨by decide, c8_monotonic_amended.2 7 2 (by decide)⟩

/-- Fold a list of recorded values into a fresh aggregation state of a kind. -/
def applyValues (agg : AggKind) (vs : List Int) : AggState :=
  vs.foldl (foldValue agg) (initState agg)

theorem foldl_count_eq (vs : List Int) :
    ∀ n : Nat, vs.foldl (foldValue AggKind.count) (AggState.count n) =
      AggState.count (n + vs.length) := by
  induction vs with
  | nil => intro n; simp
  | cons v rest ih =>
    intro n
    rw [List.foldl_cons]
    rw [show foldValue AggKind.count (AggState.count n) v = AggState.count (n + 1) from rfl]
    rw [ih (n + 1)]
    congr 1
    simp
    omega

/-- Claim C9: every one of the six default backend API views uses the Count
aggregation, so the folded state — hence every exported backend series value —
depends only on the number of Records, never on the recorded values. -/
theorem c9_all_count :
    (∀ vw ∈ DefaultBackendAPIViews, vw.aggregation = AggKind.count) ∧
    (∀ vs1 vs2 : List Int, vs1.length = vs2.length →
      applyValues AggKind.count vs1 = applyValues AggKind.count vs2) := by
  constructor
  · decide
  · intro vs1 vs2 h
    unfold applyValues
    rw [show initState AggKind.count = AggState.count 0 from rfl]
    rw [foldl_count_eq vs1 0, foldl_count_eq vs2 0, h]

/-- Witness for C9: the log view is a Count view, and two value lists of equal
length fold to the same state whatever their values. -/
theorem c9_all_count_witness :
    BeLogCountView.aggregation = AggKind.count ∧
    applyValues AggKind.count [3, 9] = applyValues AggKind.count [100, -4] :=
  ⟨c9_all_count.1 BeLogCountView (by decide), c9_all_count.2 [3, 9] [100, -4] rfl⟩

/-- Claim C10: among the six default views exactly the log-line view declares a
non-empty TagKey set, namely `[KeySeverity]`; `KeyMethod` is referenced by no
default view; and every view with an empty TagKey set projects every tag mapping
onto the single empty combination. -/
theorem c10_tagkeys :
    BeLogCountView.tagKeys = [KeySeverity] ∧
    DefaultBackendAPIViews.filter (fun vw => !vw.tagKeys.isEmpty) = [BeLogCountView] ∧
    (∀ vw ∈ DefaultBackendAPIViews, KeyMethod ∉ vw.tagKeys) ∧
    (∀ vw ∈ DefaultBackendAPIViews, vw.tagKeys = [] →
      ∀ tags : List (TagKey × String), projectTags vw tags = []) := by
  refine ⟨rfl, by decide, by decide, ?_⟩
  intro vw _ h tags
  simp [projectTags, h]

/-- Witness for C10: the failure view carries no `method` key and projects any
tag mapping onto the empty combination. -/
theorem c10_tagkeys_witness :
    KeyMethod ∉ BeFailureCountView.tagKeys ∧
    projectTags BeFailureCountView [(KeyMethod, "FetchMatches")] = [] :=
  ⟨c10_tagkeys.2.2.1 BeFailureCountView (by decide),
   c10_tagkeys.2.2.2 BeFailureCountView (by decide) rfl [(KeyMethod, "FetchMatches")]⟩

end OpenMatch
